import Mathlib

/-!
Verification of the sqlfluff front end (ANSI dialect declarations and rule L014).

The repository under verification contains two source files:
`src/sqlfluff/dialects/dialect_ansi.py` (the ANSI lexer table and grammar
declarations) and `src/sqlfluff/core/rules/std/L014.py` (the
identifier-capitalisation rule, which narrows `Rule_L010`'s target set).
The lexer table, grammar declarations, names, types, anti-templates and
`_target_elems` below are translated from those files.  The underlying
machinery (the lexer engine, the grammar-combinator matcher, the dialect
registry and `Rule_L010`'s algorithm) is not part of the source tree; those
definitions are modelled from the specification and are marked
`Modelled from the spec:` in their doc comments.
-/

set_option maxRecDepth 10000

set_option maxHeartbeats 2000000

/-- A lexed token: the lexer-pattern name that produced it, its raw text and
its code flag.  Translated from the spec's Token data model (`{text, lexical
class, is_code}`); source position is recoverable from document order. -/
structure Token where
  name : String
  text : List Char
  isCode : Bool
deriving Repr, DecidableEq

/-- The shape of one lexer pattern.  Each constructor covers one of the
regex / singleton patterns appearing in `ansi_dialect.set_lexer_struct`. -/
inductive LexPat where
  /-- regex `[\t ]*` -/
  | whitespacePat
  /-- regex `(-- |#)[^\n]*` -/
  | inlineCommentPat
  /-- regex `\/\*([^\*]|\*[^\/])*\*\/` -/
  | blockCommentPat
  /-- regex `q[^q]*q` for a quote character `q` -/
  | quotedPat (q : Char)
  /-- regex `([0-9]+(\.[0-9]+)?)` -/
  | numericPat
  /-- regex `!=|<>` -/
  | notEqualPat
  /-- an exact multi-character string such as `>=`, `<=`, `::`, `\r\n` -/
  | exactPat (s : List Char)
  /-- a singleton (exact one-character) pattern -/
  | singletonPat (c : Char)
  /-- regex `[0-9a-zA-Z_]*` -/
  | codePat
deriving Repr, DecidableEq

def countWhile (p : Char → Bool) : List Char → Nat
  | [] => 0
  | c :: rest => if p c then countWhile p rest + 1 else 0

def isWsChar (c : Char) : Bool := c == ' ' || c == '\t'

def isWordChar (c : Char) : Bool :=
  c.isDigit || (97 ≤ c.toNat && c.toNat ≤ 122) || (65 ≤ c.toNat && c.toNat ≤ 90) || c == '_'

/-- Length matched inside a block comment after the opening `/*`, including the
closing `*/`; `none` when no closing sequence is reachable.  Mirrors the
backtracking behaviour of the regex `([^\*]|\*[^\/])*\*\/`. -/
def bcClose : List Char → Option Nat
  | '*' :: '/' :: _ => some 2
  | '*' :: c :: rest => if c == '/' then some 2 else (bcClose rest).map (· + 2)
  | '*' :: [] => none
  | _ :: rest => (bcClose rest).map (· + 1)
  | [] => none

def quotedLen (q : Char) : List Char → Nat
  | [] => 0
  | c :: rest =>
    if c == q then
      let n := countWhile (fun x => x != q) rest
      match rest.drop n with
      | x :: _ => if x == q then n + 2 else 0
      | [] => 0
    else 0

def numLen (cs : List Char) : Nat :=
  let d := countWhile Char.isDigit cs
  if d == 0 then 0
  else
    match cs.drop d with
    | '.' :: rest =>
      let d2 := countWhile Char.isDigit rest
      if d2 == 0 then d else d + 1 + d2
    | _ => d

def exactLen (p : List Char) (cs : List Char) : Nat :=
  if p.isPrefixOf cs then p.length else 0

/-- Modelled from the spec: length of the (possibly empty) prefix of `cs`
matched by a lexer pattern; `0` stands for both an empty match and no match,
which the lexer loop treats identically ("take the first matching a
non-empty prefix"). -/
def patMatchLen : LexPat → List Char → Nat
  | .whitespacePat, cs => countWhile isWsChar cs
  | .inlineCommentPat, cs =>
    match cs with
    | '-' :: '-' :: ' ' :: rest => 3 + countWhile (fun c => c != '\n') rest
    | '#' :: rest => 1 + countWhile (fun c => c != '\n') rest
    | _ => 0
  | .blockCommentPat, cs =>
    match cs with
    | '/' :: '*' :: rest =>
      match bcClose rest with
      | some n => n + 2
      | none => 0
    | _ => 0
  | .quotedPat q, cs => quotedLen q cs
  | .numericPat, cs => numLen cs
  | .notEqualPat, cs =>
    if ['!', '='].isPrefixOf cs || ['<', '>'].isPrefixOf cs then 2 else 0
  | .exactPat s, cs => exactLen s cs
  | .singletonPat c, cs =>
    match cs with
    | x :: _ => if x == c then 1 else 0
    | [] => 0
  | .codePat, cs => countWhile isWordChar cs

/-- One row of a lexer table: pattern name, the pattern, and whether the
produced token is code (from the `is_code=True` kwargs; whitespace, comments
and newlines are non-code). -/
structure LexEntry where
  name : String
  pat : LexPat
  isCode : Bool
deriving Repr, DecidableEq

/-- The ANSI lexer table, translated row by row (and in order) from
`ansi_dialect.set_lexer_struct` in `dialect_ansi.py`. -/
def ansiLexTable : List LexEntry := [
  ⟨"whitespace", .whitespacePat, false⟩,
  ⟨"inline_comment", .inlineCommentPat, false⟩,
  ⟨"block_comment", .blockCommentPat, false⟩,
  ⟨"single_quote", .quotedPat (Char.ofNat 39), true⟩,
  ⟨"double_quote", .quotedPat (Char.ofNat 34), true⟩,
  ⟨"back_quote", .quotedPat (Char.ofNat 96), true⟩,
  ⟨"numeric_literal", .numericPat, true⟩,
  ⟨"not_equal", .notEqualPat, true⟩,
  ⟨"greater_than_or_equal", .exactPat ['>', '='], true⟩,
  ⟨"less_than_or_equal", .exactPat ['<', '='], true⟩,
  ⟨"newline", .exactPat ['\r', '\n'], false⟩,
  ⟨"casting_operator", .exactPat [':', ':'], true⟩,
  ⟨"newline", .singletonPat '\n', false⟩,
  ⟨"equals", .singletonPat '=', true⟩,
  ⟨"greater_than", .singletonPat '>', true⟩,
  ⟨"less_than", .singletonPat '<', true⟩,
  ⟨"dot", .singletonPat '.', true⟩,
  ⟨"comma", .singletonPat ',', true⟩,
  ⟨"plus", .singletonPat '+', true⟩,
  ⟨"tilde", .singletonPat '~', true⟩,
  ⟨"minus", .singletonPat '-', true⟩,
  ⟨"divide", .singletonPat '/', true⟩,
  ⟨"star", .singletonPat '*', true⟩,
  ⟨"bracket_open", .singletonPat '(', true⟩,
  ⟨"bracket_close", .singletonPat ')', true⟩,
  ⟨"semicolon", .singletonPat ';', true⟩,
  ⟨"code", .codePat, true⟩]

/-- Modelled from the spec: find the first table entry matching a non-empty
prefix at this position, together with the matched length. -/
def firstMatchLen (table : List LexEntry) (cs : List Char) : Option (LexEntry × Nat) :=
  match table with
  | [] => none
  | e :: rest =>
    let n := patMatchLen e.pat cs
    if n == 0 then firstMatchLen rest cs else some (e, n)

/-- Modelled from the spec: one lexer step — emit one token for the first
pattern matching a non-empty prefix, or fail (LexError) when none does. -/
def lexStep (table : List LexEntry) (cs : List Char) : Option (Token × List Char) :=
  (firstMatchLen table cs).map fun en =>
    (⟨en.1.name, cs.take en.2, en.1.isCode⟩, cs.drop en.2)

/-- Modelled from the spec: the lexer loop.  Fuel bounds the number of steps;
each step consumes at least one character, so `cs.length` fuel suffices. -/
def lexLoop (table : List LexEntry) : Nat → List Char → Option (List Token)
  | _, [] => some []
  | 0, _ :: _ => none
  | fuel + 1, cs =>
    match lexStep table cs with
    | none => none
    | some (t, rest) => (lexLoop table fuel rest).map (t :: ·)

/-- Lex a whole character list with a given dialect lexer table. -/
def lexWith (table : List LexEntry) (cs : List Char) : Option (List Token) :=
  lexLoop table cs.length cs

/-- Lex a string with the ANSI dialect table. -/
def ansiLex (s : String) : Option (List Token) := lexWith ansiLexTable s.toList

/-- Total variant used to feed concrete token lists to grammar matching. -/
def lexToks (s : String) : List Token := (ansiLex s).getD []

/-- Concatenation of token texts in document order. -/
def tokensRaw (ts : List Token) : List Char := (ts.map Token.text).flatten

theorem lexStep_concat {table : List LexEntry} {cs : List Char} {t : Token}
    {rest : List Char} (h : lexStep table cs = some (t, rest)) :
    t.text ++ rest = cs := by
  unfold lexStep at h
  cases hf : firstMatchLen table cs with
  | none => rw [hf] at h; simp at h
  | some en =>
    rw [hf] at h
    simp only [Option.map_some', Option.some.injEq, Prod.mk.injEq] at h
    obtain ⟨ht, hr⟩ := h
    subst hr
    rw [← ht]
    exact List.take_append_drop _ _

theorem firstMatchLen_pos {table : List LexEntry} {cs : List Char}
    {e : LexEntry} {n : Nat} (h : firstMatchLen table cs = some (e, n)) :
    n ≠ 0 ∧ patMatchLen e.pat cs = n := by
  induction table with
  | nil => simp [firstMatchLen] at h
  | cons hd tl ih =>
    unfold firstMatchLen at h
    by_cases hz : patMatchLen hd.pat cs == 0
    · simp only [hz, if_pos] at h
      exact ih h
    · simp only [hz, if_neg, Bool.false_eq_true, not_false_iff, Option.some.injEq,
        Prod.mk.injEq] at h
      obtain ⟨he, hn⟩ := h
      subst he; subst hn
      exact ⟨by simpa using hz, rfl⟩

theorem lexStep_text_take {table : List LexEntry} {cs : List Char} {t : Token}
    {rest : List Char} (h : lexStep table cs = some (t, rest)) :
    ∃ n, n ≠ 0 ∧ t.text = cs.take n ∧ rest = cs.drop n := by
  unfold lexStep at h
  cases hf : firstMatchLen table cs with
  | none => rw [hf] at h; simp at h
  | some en =>
    rw [hf] at h
    simp only [Option.map_some', Option.some.injEq, Prod.mk.injEq] at h
    obtain ⟨ht, hr⟩ := h
    exact ⟨en.2, (firstMatchLen_pos hf).1, by rw [← ht], hr.symm⟩

theorem lexLoop_concat {table : List LexEntry} :
    ∀ (fuel : Nat) (cs : List Char) (ts : List Token),
      lexLoop table fuel cs = some ts → tokensRaw ts = cs := by
  intro fuel
  induction fuel with
  | zero =>
    intro cs ts h
    cases cs with
    | nil =>
      have h' : (some [] : Option (List Token)) = some ts := h
      cases h'; rfl
    | cons c rest => exact absurd h (by simp [lexLoop])
  | succ fuel ih =>
    intro cs ts h
    cases cs with
    | nil =>
      have h' : (some [] : Option (List Token)) = some ts := h
      cases h'; rfl
    | cons c rest =>
      cases hs : lexStep table (c :: rest) with
      | none =>
        have h' : (none : Option (List Token)) = some ts := by
          rw [← h]; unfold lexLoop; rw [hs]
        cases h'
      | some tr =>
        obtain ⟨t, rest'⟩ := tr
        have h' : Option.map (t :: ·) (lexLoop table fuel rest') = some ts := by
          rw [← h]; conv_rhs => unfold lexLoop
          rw [hs]
        cases hl : lexLoop table fuel rest' with
        | none => rw [hl] at h'; cases h'
        | some ts' =>
          rw [hl] at h'
          simp only [Option.map_some', Option.some.injEq] at h'
          subst h'
          have hc := lexStep_concat hs
          have hr := ih rest' ts' hl
          simp only [tokensRaw, List.map_cons, List.flatten_cons]
          rw [show (ts'.map Token.text).flatten = tokensRaw ts' from rfl, hr, hc]

mutual

/-- Modelled from the spec: a parse-tree node is a raw leaf token or a typed
composite owning an ordered sequence of children. -/
inductive STree where
  | leaf (t : Token)
  | node (typ : String) (children : SForest)

/-- An ordered sequence of sibling trees. -/
inductive SForest where
  | nil
  | cons (hd : STree) (tl : SForest)

end

mutual

/-- The leaf tokens of a tree in document order. -/
def leafTokens : STree → List Token
  | .leaf t => [t]
  | .node _ cs => forestLeafTokens cs

/-- The leaf tokens of a forest in document order. -/
def forestLeafTokens : SForest → List Token
  | .nil => []
  | .cons hd tl => leafTokens hd ++ forestLeafTokens tl

end

/-- Reserialization of a tree: concatenation of its leaf texts. -/
def treeRaw (tr : STree) : List Char := tokensRaw (leafTokens tr)

/-- The grammar combinators, translated from the spec's combinator set; the
terminal constructors encode the segment matchers used by the ANSI dialect
declarations (`KeywordSegment.make`, `ReSegment.make` with the
naked-identifier template and anti-template, `ReSegment.make` with the
`[A-Z][A-Z0-9_]*` template, `NamedSegment.make`, and the non-code
`LambdaSegment`). -/
inductive Grammar where
  /-- `KeywordSegment.make kw`: one token whose lowercased text equals `kw` -/
  | keyword (kw : String)
  /-- `ReSegment.make` with template `[A-Z0-9_]*[A-Z][A-Z0-9_]*` and the
  join-keyword anti-template (the `NakedIdentifierSegment` matcher) -/
  | reNaked
  /-- `ReSegment.make` with template `[A-Z][A-Z0-9_]*` (function names and
  data types) -/
  | reWord
  /-- `NamedSegment.make n`: one token produced by the lexer pattern named `n` -/
  | named (n : String)
  /-- `LambdaSegment.make (lambda x: not x.is_code)`: one non-code token -/
  | nonCode
  /-- `Ref('name')`: deferred lookup against the active dialect at match time -/
  | ref (name : String)
  /-- `OneOf(...)`: first-listed success wins -/
  | oneOf (alts : List Grammar)
  /-- `Sequence(...)`: items in order, each possibly optional; `codeOnly`
  mirrors the `code_only` toggle (auto-skip trivia between elements) -/
  | seq (codeOnly : Bool) (items : List (Grammar × Bool))
  /-- `Delimited(elem, delimiter=..., min_delimiters=..., terminator=...)` -/
  | delimited (elem delim : Grammar) (minDelims : Nat) (term : Option Grammar)
      (codeOnly : Bool)
  /-- `Bracketed(inner)`: opening bracket, inner grammar, matching closing
  bracket -/
  | bracketed (inner : Grammar)
  /-- `Anything(...)`: consumes the whole slice -/
  | anything

/-- Modelled from the spec: a combinator either fails (with zero consumption),
succeeds consuming `n` leading tokens of the slice, or raises the
unresolved-reference error for a `Ref` name absent from the active dialect. -/
inductive MatchOutcome where
  | fail
  | success (n : Nat)
  | unresolved (name : String)
deriving Repr, DecidableEq

def MatchOutcome.isSucc : MatchOutcome → Bool
  | .success _ => true
  | _ => false

/-- Modelled from the spec: a dialect is a symbol table from grammar names to
grammars; overriding prepends, lookup takes the first binding. -/
abbrev Dialect := List (String × Grammar)

def lookupD (d : Dialect) (key : String) : Option Grammar :=
  match d with
  | [] => none
  | (k, g) :: rest => if key == k then some g else lookupD rest key

/-- Modelled from the spec: `override(name, replacement)` on a derived
dialect — shadow the single binding, leaving every other binding in place. -/
def overrideD (d : Dialect) (key : String) (g : Grammar) : Dialect := (key, g) :: d

def lowerT (t : Token) : List Char := t.text.map Char.toLower

def upperT (t : Token) : List Char := t.text.map Char.toUpper

/-- `[A-Z0-9_]` membership for a character of the uppercased text. -/
def isUpperWordChar (c : Char) : Bool :=
  c.isDigit || (65 ≤ c.toNat && c.toNat ≤ 90) || c == '_'

/-- Full match of the template `[A-Z0-9_]*[A-Z][A-Z0-9_]*` against an
uppercased text: every character in the class, at least one letter. -/
def nakedTemplateOk (s : List Char) : Bool :=
  s.all isUpperWordChar && s.any (fun c => 65 ≤ c.toNat && c.toNat ≤ 90)

/-- The words of the `NakedIdentifierSegment` anti-template
`(JOIN|ON|USING|CROSS|INNER|LEFT|RIGHT|OUTER)`, from `dialect_ansi.py`. -/
def antiWords : List (List Char) :=
  ["JOIN", "ON", "USING", "CROSS", "INNER", "LEFT", "RIGHT", "OUTER"].map String.toList

/-- The `NakedIdentifierSegment` matcher: a code token whose uppercased text
fully matches the template and is not excluded by the anti-template. -/
def nakedIdentTok (t : Token) : Bool :=
  t.isCode && nakedTemplateOk (upperT t) && !(antiWords.contains (upperT t))

/-- Full match of the template `[A-Z][A-Z0-9_]*` against an uppercased text. -/
def upperWordOk (s : List Char) : Bool :=
  match s with
  | [] => false
  | c :: rest => (65 ≤ c.toNat && c.toNat ≤ 90) && rest.all isUpperWordChar

/-- Whether a terminal grammar matches a single token. -/
def terminalTok : Grammar → Token → Bool
  | .keyword kw, t => lowerT t == kw.toList
  | .reNaked, t => nakedIdentTok t
  | .reWord, t => t.isCode && upperWordOk (upperT t)
  | .named n, t => t.name == n
  | .nonCode, t => !t.isCode
  | _, _ => false

def Grammar.isTerminal : Grammar → Bool
  | .keyword _ | .reNaked | .reWord | .named _ | .nonCode => true
  | _ => false

/-- Number of leading non-code (trivia) tokens. -/
def countLeadNonCode : List Token → Nat
  | [] => 0
  | t :: rest => if t.isCode then 0 else countLeadNonCode rest + 1

/-- Trivia to skip before the next element under a `code_only` toggle. -/
def skipNC (codeOnly : Bool) (toks : List Token) : Nat :=
  if codeOnly then countLeadNonCode toks else 0

def allNonCode (toks : List Token) : Bool := toks.all (fun t => !t.isCode)

/-- Modelled from the spec: `OneOf` tries alternatives in declared order and
returns the first non-failing outcome; it never revisits later siblings. -/
def firstSuccess (f : Grammar → MatchOutcome) : List Grammar → MatchOutcome
  | [] => .fail
  | a :: rest =>
    match f a with
    | .fail => firstSuccess f rest
    | r => r

/-- Modelled from the spec: `Sequence` matches its items strictly in order,
skipping trivia between elements under `code_only`; a required item's failure
fails the whole, an optional item's failure is skipped. `acc` accumulates the
consumed length. -/
def seqLoop (f : Grammar → List Token → MatchOutcome) (codeOnly : Bool) :
    List (Grammar × Bool) → List Token → Nat → MatchOutcome
  | [], _, acc => .success acc
  | (g, opt) :: rest, toks, acc =>
    let k := skipNC codeOnly toks
    let toks' := toks.drop k
    match f g toks' with
    | .success n => seqLoop f codeOnly rest (toks'.drop n) (acc + k + n)
    | .fail => if opt then seqLoop f codeOnly rest toks acc else .fail
    | u => u

/-- Modelled from the spec: index of the first suffix at which the terminator
matches (`GreedyUntil`-style pre-split); the slice length when it never does. -/
def termBound (p : List Token → Bool) : List Token → Nat
  | [] => 0
  | t :: rest => if p (t :: rest) then 0 else termBound p rest + 1

/-- Result of a `Delimited` match: consumed length, number of elements and
number of delimiters. -/
inductive DelimResult where
  | fail
  | unresolved (name : String)
  | ok (consumed elems delims : Nat)
deriving Repr, DecidableEq

/-- Modelled from the spec: after the first element, repeatedly match
delimiter then element until the slice (up to trailing trivia) is exhausted;
a delimiter not followed by an element is a failure. -/
def delimLoop (f : Grammar → List Token → MatchOutcome) (elem delim : Grammar)
    (codeOnly : Bool) : Nat → List Token → Nat → Nat → DelimResult
  | 0, _, _, _ => .fail
  | loopFuel + 1, toks, es, ds =>
    let k := skipNC codeOnly toks
    let t1 := toks.drop k
    if t1.isEmpty then .ok 0 es ds
    else
      match f delim t1 with
      | .unresolved n => .unresolved n
      | .fail => .fail
      | .success nd =>
        let t2 := t1.drop nd
        let k2 := skipNC codeOnly t2
        let t3 := t2.drop k2
        match f elem t3 with
        | .unresolved n => .unresolved n
        | .fail => .fail
        | .success ne => delimLoop f elem delim codeOnly loopFuel (t3.drop ne) (es + 1) (ds + 1)

/-- Modelled from the spec: `Delimited` — one or more elements separated by
the delimiter, stopping at the terminator when one occurs; the pre-terminator
slice must be fully consumed and at least `minDelims` delimiters seen. -/
def delimFull (f : Grammar → List Token → MatchOutcome) (elem delim : Grammar)
    (minDelims : Nat) (term : Option Grammar) (codeOnly : Bool)
    (toks : List Token) : DelimResult :=
  let bound :=
    match term with
    | none => toks.length
    | some tg => termBound (fun ts => (f tg ts).isSucc) toks
  let slice := toks.take bound
  let k := skipNC codeOnly slice
  let t1 := slice.drop k
  match f elem t1 with
  | .unresolved n => .unresolved n
  | .fail => .fail
  | .success ne =>
    match delimLoop f elem delim codeOnly (slice.length + 1) (t1.drop ne) 1 0 with
    | .unresolved n => .unresolved n
    | .fail => .fail
    | .ok _ es ds => if minDelims ≤ ds then .ok bound es ds else .fail

/-- Whether the tokens after position `m` are nothing but trivia. -/
def fullyConsumed (m : Nat) (toks : List Token) : Bool := allNonCode (toks.drop m)

/-- The index of the closing bracket matching an already-open bracket, given
the tokens after the opening one; `none` when the brackets are unbalanced. -/
def findClose : List Token → Nat → Option Nat
  | [], _ => none
  | t :: rest, depth =>
    if t.text == [')'] then
      if depth == 0 then some 0 else (findClose rest (depth - 1)).map (· + 1)
    else if t.text == ['('] then (findClose rest (depth + 1)).map (· + 1)
    else (findClose rest depth).map (· + 1)

/-- Modelled from the spec: `Bracketed` — an opening bracket, the inner
grammar over the span up to the matching closing bracket, then that closing
bracket; unbalanced brackets are a hard failure. -/
def bracketedMatch (f : Grammar → List Token → MatchOutcome) (inner : Grammar)
    (toks : List Token) : MatchOutcome :=
  match toks.drop (countLeadNonCode toks) with
  | [] => .fail
  | t :: rest =>
    if t.text == ['('] then
      match findClose rest 0 with
      | none => .fail
      | some j =>
        match f inner (rest.take j) with
        | .unresolved n => .unresolved n
        | .fail => .fail
        | .success m =>
          if fullyConsumed m (rest.take j) then
            .success (countLeadNonCode toks + 1 + j + 1)
          else .fail
    else .fail

/-- Modelled from the spec: the grammar matcher.  It consumes a slice of
sibling tokens and returns the consumed length on success; `Ref` names are
resolved lazily against the active dialect, and an absent name surfaces as
the `unresolved` outcome only when matching actually exercises the `Ref`.
Fuel decreases on every recursive call; every concrete statement below
supplies enough fuel for full evaluation. -/
def matchG : Nat → Dialect → Grammar → List Token → MatchOutcome
  | 0, _, _, _ => .fail
  | fuel + 1, d, g, toks =>
    match g with
    | .keyword kw =>
      match toks with
      | t :: _ => if terminalTok (.keyword kw) t then .success 1 else .fail
      | [] => .fail
    | .reNaked =>
      match toks with
      | t :: _ => if terminalTok .reNaked t then .success 1 else .fail
      | [] => .fail
    | .reWord =>
      match toks with
      | t :: _ => if terminalTok .reWord t then .success 1 else .fail
      | [] => .fail
    | .named n =>
      match toks with
      | t :: _ => if terminalTok (.named n) t then .success 1 else .fail
      | [] => .fail
    | .nonCode =>
      match toks with
      | t :: _ => if terminalTok .nonCode t then .success 1 else .fail
      | [] => .fail
    | .anything => .success toks.length
    | .ref n =>
      match lookupD d n with
      | none => .unresolved n
      | some g' => matchG fuel d g' toks
    | .oneOf alts => firstSuccess (fun a => matchG fuel d a toks) alts
    | .seq codeOnly items => seqLoop (fun a ts => matchG fuel d a ts) codeOnly items toks 0
    | .bracketed inner => bracketedMatch (fun a ts => matchG fuel d a ts) inner toks
    | .delimited elem delim minD term codeOnly =>
      match delimFull (fun a ts => matchG fuel d a ts) elem delim minD term codeOnly toks with
      | .unresolved n => .unresolved n
      | .fail => .fail
      | .ok c _ _ => .success c

/-- `SingleIdentifierGrammar` from `dialect_ansi.py`:
`OneOf(Ref('NakedIdentifierSegment'), Ref('QuotedIdentifierSegment'))`. -/
def singleIdentifierGrammar : Grammar :=
  .oneOf [.ref "NakedIdentifierSegment", .ref "QuotedIdentifierSegment"]

/-- `BooleanLiteralGrammar` from `dialect_ansi.py`:
`OneOf(Ref('TrueSegment'), Ref('FalseSegment'))`. -/
def booleanLiteralGrammar : Grammar := .oneOf [.ref "TrueSegment", .ref "FalseSegment"]

/-- The alternatives of `LiteralGrammar` from `dialect_ansi.py`, in declared
order; the last one is a forward reference to a segment registered only
later in the module. -/
def literalGrammarAlts : List Grammar :=
  [.ref "QuotedLiteralSegment", .ref "NumericLiteralSegment",
   .ref "BooleanLiteralGrammar", .ref "QualifiedNumericLiteralSegment"]

/-- `ObjectReferenceSegment.match_grammar` from `dialect_ansi.py`:
`Delimited(Ref('SingleIdentifierGrammar'), delimiter=Ref('DotSegment'),
terminator=OneOf(Ref('_NonCodeSegment'), Ref('CommaSegment'),
Ref('CastOperatorKeywordSegment')), code_only=False)`. -/
def objectReferenceMatchGrammar : Grammar :=
  .delimited (.ref "SingleIdentifierGrammar") (.ref "DotSegment") 0
    (some (.oneOf [.ref "_NonCodeSegment", .ref "CommaSegment",
      .ref "CastOperatorKeywordSegment"])) false

/-- `QualifiedNumericLiteralSegment.match_grammar` from `dialect_ansi.py`:
`Sequence(OneOf(Ref('PlusSegment'), Ref('MinusSegment')),
Ref('NumericLiteralSegment'), code_only=False)`. -/
def qualifiedNumericMatchGrammar : Grammar :=
  .seq false [(.oneOf [.ref "PlusSegment", .ref "MinusSegment"], false),
    (.ref "NumericLiteralSegment", false)]

/-- `FunctionSegment.match_grammar` from `dialect_ansi.py`:
`Sequence(Sequence(Ref('FunctionNameSegment'), Bracketed(Anything(optional=True)),
code_only=False), Sequence(Ref('OverKeywordSegment'),
Bracketed(Anything(optional=True)), optional=True))`. -/
def functionMatchGrammar : Grammar :=
  .seq true
    [(.seq false [(.ref "FunctionNameSegment", false), (.bracketed .anything, false)], false),
     (.seq true [(.ref "OverKeywordSegment", false), (.bracketed .anything, false)], true)]

/-- The bindings of the first `ansi_dialect.add(...)` call that the claims
exercise (a faithful fragment of that call: each binding is translated from
its keyword argument in `dialect_ansi.py`; bindings the claims never touch
are omitted). `QualifiedNumericLiteralSegment` is deliberately absent: at
this point in the module it is not yet defined. -/
def ansiStage1 : Dialect := [
  ("_NonCodeSegment", .nonCode),
  ("CommaSegment", .keyword ","),
  ("DotSegment", .keyword "."),
  ("CastOperatorKeywordSegment", .keyword "::"),
  ("PlusSegment", .keyword "+"),
  ("MinusSegment", .keyword "-"),
  ("NakedIdentifierSegment", .reNaked),
  ("FunctionNameSegment", .reWord),
  ("QuotedIdentifierSegment", .named "double_quote"),
  ("QuotedLiteralSegment", .named "single_quote"),
  ("NumericLiteralSegment", .named "numeric_literal"),
  ("TrueSegment", .keyword "true"),
  ("FalseSegment", .keyword "false"),
  ("SingleIdentifierGrammar", singleIdentifierGrammar),
  ("BooleanLiteralGrammar", booleanLiteralGrammar),
  ("OverKeywordSegment", .keyword "over"),
  ("LiteralGrammar", .oneOf literalGrammarAlts)]

/-- The segment classes registered after the first `add` call (via the
`@ansi_dialect.segment()` decorator), restricted to those the claims
exercise; each match grammar is translated from its class body. -/
def ansiStage2 : Dialect := [
  ("ObjectReferenceSegment", objectReferenceMatchGrammar),
  ("QualifiedNumericLiteralSegment", qualifiedNumericMatchGrammar),
  ("FunctionSegment", functionMatchGrammar)]

/-- The completed ANSI dialect fragment: stage-2 registrations on top of the
first `add` call. -/
def ansiFragment : Dialect := ansiStage1 ++ ansiStage2

/-- The capitalisation styles distinguished by the case-consistency rule. -/
inductive CapStyle where
  | upper
  | lower
  | capitalise
  | inconsistent
deriving Repr, DecidableEq

def lowerS (s : List Char) : List Char := s.map Char.toLower

def upperS (s : List Char) : List Char := s.map Char.toUpper

def capitalS (s : List Char) : List Char :=
  match s with
  | [] => []
  | c :: rest => c.toUpper :: lowerS rest

/-- Modelled from the spec: the case style of a text; `none` for caseless
texts, which carry no style information. -/
def styleOf (s : List Char) : Option CapStyle :=
  if upperS s == lowerS s then none
  else if s == upperS s then some .upper
  else if s == lowerS s then some .lower
  else if s == capitalS s then some .capitalise
  else some .inconsistent

/-- Rewrite a text to the given case style. -/
def applyStyle : CapStyle → List Char → List Char
  | .upper, s => upperS s
  | .lower, s => lowerS s
  | .capitalise, s => capitalS s
  | .inconsistent, s => s

/-- Modelled from the spec: the canonical consistent-capitalisation walk —
in document order, compare each target's case style against the first-seen
style; on disagreement emit a violation whose fix rewrites the text to the
first-seen style.  Returns `(target index, fixed text)` pairs. -/
def capConsistencyWalk (firstSeen : Option CapStyle) (i : Nat) :
    List (List Char) → List (Nat × List Char)
  | [] => []
  | s :: rest =>
    match styleOf s with
    | none => capConsistencyWalk firstSeen (i + 1) rest
    | some st =>
      match firstSeen with
      | none => capConsistencyWalk (some st) (i + 1) rest
      | some first =>
        if st == first then capConsistencyWalk firstSeen (i + 1) rest
        else (i, applyStyle first s) :: capConsistencyWalk firstSeen (i + 1) rest

/-- The keyword strings bound through `KeywordSegment.make` in
`dialect_ansi.py` (claimed by keyword segments during parsing, hence never
left as naked identifiers in a parsed tree). -/
def ansiKeywordStrings : List String :=
  ["true", "false",
   "as", "from", "distinct", "exists", "over", "rows", "partition", "case",
   "when", "then", "else", "end", "all", "limit", "union", "minus", "except",
   "intersect", "on", "join", "inner", "left", "cross", "using", "where",
   "group", "order", "having", "overwrite", "by", "in", "is", "null", "nan",
   "and", "or", "not", "asc", "desc", "value", "values", "select", "with",
   "insert", "into", "commit", "work", "no", "chain", "rollback", "create",
   "drop", "table", "constraint", "unique", "primary", "foreign", "key",
   "references", "default", "if", "view", "restrict", "cascade", "grant",
   "revoke", "tables", "schema", "for", "to", "option", "privileges",
   "update"]

/-- The `naked_identifier` target segments of a statement, in document order:
the code tokens that match the `NakedIdentifierSegment` pattern and are not
claimed as keywords by the ANSI grammar. -/
def nakedIdentifierTargets (sql : String) : List (List Char) :=
  (((ansiLex sql).getD []).filter
    (fun t => nakedIdentTok t &&
      !((ansiKeywordStrings.map String.toList).contains (lowerT t)))).map Token.text

/-- `Rule_L014._target_elems` from `L014.py`: the single pair
`("name", "naked_identifier")`, the only attribute the rule overrides. -/
def ruleL014TargetElems : List (String × String) := [("name", "naked_identifier")]

/-- Rule L014 on one statement: the case-consistency walk (inherited from
`Rule_L010`) over the naked-identifier targets. -/
def ruleL014Lint (sql : String) : List (Nat × List Char) :=
  capConsistencyWalk none 0 (nakedIdentifierTargets sql)

/-- Name and type metadata of one binding of the ANSI dialect: the
registration key, the segment `name` (`none` for plain grammars, which carry
no name), and the segment `type` tag. -/
structure DialectEntry where
  key : String
  name : Option String
  typ : Option String
deriving Repr, DecidableEq

/-- Does an element pair `("name", v)` of a rule's `_target_elems` select
this binding when matched against segment names only? -/
def selByNameOnly (elems : List (String × String)) (e : DialectEntry) : Bool :=
  elems.any (fun p => p.1 == "name" && e.name == some p.2)

/-- Does an element pair select this binding when name-based targeting also
consults the segment's type tag? -/
def selByNameOrType (elems : List (String × String)) (e : DialectEntry) : Bool :=
  elems.any (fun p => p.1 == "name" && (e.name == some p.2 || e.typ == some p.2))

/-- Chunk 1 of the ANSI dialect binding metadata (see `ansiDialectEntries`). -/
def ansiDialectEntriesPart1 : List DialectEntry := [
  ⟨"_NonCodeSegment", some "non_code", none⟩,
  ⟨"SemicolonSegment", some "semicolon", some "keyword"⟩,
  ⟨"StartBracketSegment", some "start_bracket", some "start_bracket"⟩,
  ⟨"EndBracketSegment", some "end_bracket", some "end_bracket"⟩,
  ⟨"CommaSegment", some "comma", some "comma"⟩,
  ⟨"DotSegment", some "dot", some "dot"⟩,
  ⟨"StarSegment", some "star", some "keyword"⟩,
  ⟨"TildeSegment", some "tilde", some "keyword"⟩,
  ⟨"CastOperatorKeywordSegment", some "casting_operator", some "casting_operator"⟩,
  ⟨"PlusSegment", some "plus", some "binary_operator"⟩,
  ⟨"MinusSegment", some "minus", some "binary_operator"⟩,
  ⟨"DivideSegment", some "divide", some "binary_operator"⟩,
  ⟨"MultiplySegment", some "multiply", some "binary_operator"⟩,
  ⟨"EqualsSegment", some "equals", some "comparison_operator"⟩,
  ⟨"GreaterThanSegment", some "greater_than", some "comparison_operator"⟩,
  ⟨"LessThanSegment", some "less_than", some "comparison_operator"⟩,
  ⟨"GreaterThanOrEqualToSegment", some "greater_than_equal_to", some "comparison_operator"⟩,
  ⟨"LessThanOrEqualToSegment", some "less_than_equal_to", some "comparison_operator"⟩,
  ⟨"NotEqualToSegment_a", some "not_equal_to", some "comparison_operator"⟩,
  ⟨"NotEqualToSegment_b", some "not_equal_to", some "comparison_operator"⟩,
  ⟨"NakedIdentifierSegment", some "identifier", some "naked_identifier"⟩,
  ⟨"FunctionNameSegment", some "function_name", some "function_name"⟩,
  ⟨"DatatypeSegment", some "data_type", some "data_type"⟩,
  ⟨"QuotedIdentifierSegment", some "identifier", some "quoted_identifier"⟩,
  ⟨"QuotedLiteralSegment", some "literal", some "quoted_literal"⟩,
  ⟨"NumericLiteralSegment", some "literal", some "numeric_literal"⟩,
  ⟨"TrueSegment", some "true", some "boolean_literal"⟩,
  ⟨"FalseSegment", some "false", some "boolean_literal"⟩,
  ⟨"SingleIdentifierGrammar", none, none⟩,
  ⟨"BooleanLiteralGrammar", none, none⟩]


/-- Chunk 2 of the ANSI dialect binding metadata (see `ansiDialectEntries`). -/
def ansiDialectEntriesPart2 : List DialectEntry := [
  ⟨"ArithmeticBinaryOperatorGrammar", none, none⟩,
  ⟨"BooleanBinaryOperatorGrammar", none, none⟩,
  ⟨"ComparisonOperatorGrammar", none, none⟩,
  ⟨"AsKeywordSegment", some "as", some "keyword"⟩,
  ⟨"FromKeywordSegment", some "from", some "keyword"⟩,
  ⟨"DistinctKeywordSegment", some "distinct", some "keyword"⟩,
  ⟨"ExistsKeywordSegment", some "exists", some "keyword"⟩,
  ⟨"OverKeywordSegment", some "over", some "keyword"⟩,
  ⟨"RowsKeywordSegment", some "rows", some "keyword"⟩,
  ⟨"PartitionKeywordSegment", some "partition", some "keyword"⟩,
  ⟨"CaseKeywordSegment", some "case", some "keyword"⟩,
  ⟨"WhenKeywordSegment", some "when", some "keyword"⟩,
  ⟨"ThenKeywordSegment", some "then", some "keyword"⟩,
  ⟨"ElseKeywordSegment", some "else", some "keyword"⟩,
  ⟨"EndKeywordSegment", some "end", some "keyword"⟩,
  ⟨"AllKeywordSegment", some "all", some "keyword"⟩,
  ⟨"LimitKeywordSegment", some "limit", some "keyword"⟩,
  ⟨"UnionKeywordSegment", some "union", some "keyword"⟩,
  ⟨"MinusKeywordSegment", some "minus", some "keyword"⟩,
  ⟨"ExceptKeywordSegment", some "except", some "keyword"⟩,
  ⟨"IntersectKeywordSegment", some "intersect", some "keyword"⟩,
  ⟨"OnKeywordSegment", some "on", some "keyword"⟩,
  ⟨"JoinKeywordSegment", some "join", some "keyword"⟩,
  ⟨"InnerKeywordSegment", some "inner", some "keyword"⟩,
  ⟨"LeftKeywordSegment", some "left", some "keyword"⟩,
  ⟨"CrossKeywordSegment", some "cross", some "keyword"⟩,
  ⟨"UsingKeywordSegment", some "using", some "keyword"⟩,
  ⟨"WhereKeywordSegment", some "where", some "keyword"⟩,
  ⟨"GroupKeywordSegment", some "group", some "keyword"⟩,
  ⟨"OrderKeywordSegment", some "order", some "keyword"⟩]


/-- Chunk 3 of the ANSI dialect binding metadata (see `ansiDialectEntries`). -/
def ansiDialectEntriesPart3 : List DialectEntry := [
  ⟨"HavingKeywordSegment", some "having", some "keyword"⟩,
  ⟨"OverwriteKeywordSegment", some "overwrite", some "keyword"⟩,
  ⟨"ByKeywordSegment", some "by", some "keyword"⟩,
  ⟨"InKeywordSegment", some "in", some "keyword"⟩,
  ⟨"IsKeywordSegment", some "is", some "keyword"⟩,
  ⟨"NullKeywordSegment", some "null", some "keyword"⟩,
  ⟨"NanKeywordSegment", some "nan", some "keyword"⟩,
  ⟨"AndKeywordSegment", some "and", some "binary_operator"⟩,
  ⟨"OrKeywordSegment", some "or", some "binary_operator"⟩,
  ⟨"NotKeywordSegment", some "not", some "keyword"⟩,
  ⟨"AscKeywordSegment", some "asc", some "keyword"⟩,
  ⟨"DescKeywordSegment", some "desc", some "keyword"⟩,
  ⟨"ValueKeywordSegment", some "value", some "keyword"⟩,
  ⟨"ValuesKeywordSegment", some "values", some "keyword"⟩,
  ⟨"SelectKeywordSegment", some "select", some "keyword"⟩,
  ⟨"WithKeywordSegment", some "with", some "keyword"⟩,
  ⟨"InsertKeywordSegment", some "insert", some "keyword"⟩,
  ⟨"IntoKeywordSegment", some "into", some "keyword"⟩,
  ⟨"CommitKeywordSegment", some "commit", some "keyword"⟩,
  ⟨"WorkKeywordSegment", some "work", some "keyword"⟩,
  ⟨"NoKeywordSegment", some "no", some "keyword"⟩,
  ⟨"ChainKeywordSegment", some "chain", some "keyword"⟩,
  ⟨"RollbackKeywordSegment", some "rollback", some "keyword"⟩,
  ⟨"CreateKeywordSegment", some "create", some "keyword"⟩,
  ⟨"DropKeywordSegment", some "drop", some "keyword"⟩,
  ⟨"TableKeywordSegment", some "table", some "keyword"⟩,
  ⟨"ConstraintKeywordSegment", some "constraint", some "keyword"⟩,
  ⟨"UniqueKeywordSegment", some "unique", some "keyword"⟩,
  ⟨"PrimaryKeywordSegment", some "primary", some "keyword"⟩,
  ⟨"ForeignKeywordSegment", some "foreign", some "keyword"⟩]


/-- Chunk 4 of the ANSI dialect binding metadata (see `ansiDialectEntries`). -/
def ansiDialectEntriesPart4 : List DialectEntry := [
  ⟨"KeyKeywordSegment", some "key", some "keyword"⟩,
  ⟨"ReferencesKeywordSegment", some "references", some "keyword"⟩,
  ⟨"DefaultKeywordSegment", some "default", some "keyword"⟩,
  ⟨"IfKeywordSegment", some "if", some "keyword"⟩,
  ⟨"ViewKeywordSegment", some "view", some "keyword"⟩,
  ⟨"RestrictKeywordSegment", some "restrict", some "keyword"⟩,
  ⟨"CascadeKeywordSegment", some "cascade", some "keyword"⟩,
  ⟨"GrantKeywordSegment", some "grant", some "keyword"⟩,
  ⟨"RevokeKeywordSegment", some "revoke", some "keyword"⟩,
  ⟨"TablesKeywordSegment", some "tables", some "keyword"⟩,
  ⟨"SchemaKeywordSegment", some "schema", some "keyword"⟩,
  ⟨"ForKeywordSegment", some "for", some "keyword"⟩,
  ⟨"ToKeywordSegment", some "to", some "keyword"⟩,
  ⟨"OptionKeywordSegment", some "option", some "keyword"⟩,
  ⟨"PrivilegesKeywordSegment", some "privileges", some "keyword"⟩,
  ⟨"UpdateKeywordSegment", some "update", some "keyword"⟩,
  ⟨"LiteralGrammar", none, none⟩,
  ⟨"ColumnExpressionSegment", none, some "column_expression"⟩,
  ⟨"ObjectReferenceSegment", none, some "object_reference"⟩,
  ⟨"AliasedObjectReferenceSegment", none, some "object_reference"⟩,
  ⟨"AliasExpressionSegment", none, some "alias_expression"⟩,
  ⟨"ShorthandCastSegment", none, some "cast_expression"⟩,
  ⟨"QualifiedNumericLiteralSegment", none, some "numeric_literal"⟩,
  ⟨"FunctionSegment", none, some "function"⟩,
  ⟨"PartitionClauseSegment", none, some "partitionby_clause"⟩,
  ⟨"FrameClauseSegment", none, some "partitionby_clause"⟩,
  ⟨"TableExpressionSegment", none, some "table_expression"⟩,
  ⟨"SelectTargetElementSegment", none, some "select_target_element"⟩,
  ⟨"SelectClauseSegment", none, some "select_clause"⟩,
  ⟨"JoinClauseSegment", none, some "join_clause"⟩]


/-- Chunk 5 of the ANSI dialect binding metadata (see `ansiDialectEntries`). -/
def ansiDialectEntriesPart5 : List DialectEntry := [
  ⟨"Expression_A_Grammar", none, none⟩,
  ⟨"Expression_B_Grammar", none, none⟩,
  ⟨"Expression_C_Grammar", none, none⟩,
  ⟨"Expression_D_Grammar", none, none⟩,
  ⟨"FromClauseSegment", none, some "from_clause"⟩,
  ⟨"CaseExpressionSegment", none, some "case_expression"⟩,
  ⟨"ExpressionSegment", none, some "expression"⟩,
  ⟨"ExpressionSegment_TermWhenElse", none, some "expression"⟩,
  ⟨"ExpressionSegment_TermThen", none, some "expression"⟩,
  ⟨"ExpressionSegment_TermEnd", none, some "expression"⟩,
  ⟨"WhereClauseSegment", none, some "where_clause"⟩,
  ⟨"OrderByClauseSegment", none, some "orderby_clause"⟩,
  ⟨"GroupByClauseSegment", none, some "groupby_clause"⟩,
  ⟨"LimitClauseSegment", none, some "limit_clause"⟩,
  ⟨"ValuesClauseSegment", none, some "values_clause"⟩,
  ⟨"SelectStatementSegment", none, some "select_statement"⟩,
  ⟨"WithCompoundStatementSegment", none, some "with_compound_statement"⟩,
  ⟨"SetOperatorSegment", none, some "set_operator"⟩,
  ⟨"SetExpressionSegment", none, some "set_expression"⟩,
  ⟨"InsertStatementSegment", none, some "insert_statement"⟩,
  ⟨"EmptyStatementSegment", none, some "empty_statement"⟩,
  ⟨"TransactionStatementSegment", none, some "transaction_statement"⟩,
  ⟨"ColumnConstraintSegment", none, some "column_constraint"⟩,
  ⟨"ColumnDefinitionSegment", none, some "column_definition"⟩,
  ⟨"TableConstraintSegment", none, some "table_constraint_definition"⟩,
  ⟨"CreateTableStatementSegment", none, some "create_table_statement"⟩,
  ⟨"DropStatementSegment", none, some "drop_statement"⟩,
  ⟨"AccessStatementSegment", none, some "access_statement"⟩,
  ⟨"StatementSegment", none, some "statement"⟩]

/-- Name and type metadata for every binding of the ANSI dialect, in
registration order, translated from `dialect_ansi.py`: the `add(...)` keyword
arguments, then the `@ansi_dialect.segment()` classes.  Explicit `name=` /
`type=` arguments are copied verbatim; for `KeywordSegment.make` without
them the defaults are modelled from the spec (the keyword itself as the
name, `keyword` as the type); plain grammars (`OneOf`, `Sequence`, ...)
carry neither name nor type, and segment classes carry their class `type`
attribute and no name. -/
def ansiDialectEntries : List DialectEntry :=
  ansiDialectEntriesPart1 ++ ansiDialectEntriesPart2 ++ ansiDialectEntriesPart3 ++ ansiDialectEntriesPart4 ++ ansiDialectEntriesPart5

theorem firstMatchLen_first {cs : List Char} :
    ∀ {table : List LexEntry} {e : LexEntry} {n : Nat},
      firstMatchLen table cs = some (e, n) →
      ∃ i : Nat, table[i]? = some e ∧
        ∀ j : Nat, j < i → ∀ e' : LexEntry, table[j]? = some e' →
          patMatchLen e'.pat cs = 0 := by
  intro table
  induction table with
  | nil => intro e n h; simp [firstMatchLen] at h
  | cons hd tl ih =>
    intro e n h
    unfold firstMatchLen at h
    by_cases hz : patMatchLen hd.pat cs == 0
    · rw [if_pos hz] at h
      obtain ⟨i, hi, hbefore⟩ := ih h
      refine ⟨i + 1, by simp only [List.getElem?_cons_succ]; exact hi, ?_⟩
      intro j hj e' he'
      cases j with
      | zero =>
        simp only [List.getElem?_cons_zero, Option.some.injEq] at he'
        subst he'
        simpa using hz
      | succ j =>
        refine hbefore j (by omega) e' ?_
        simpa using he'
    · rw [if_neg hz] at h
      simp only [Option.some.injEq, Prod.mk.injEq] at h
      obtain ⟨he, _⟩ := h
      subst he
      refine ⟨0, by simp, ?_⟩
      intro j hj
      omega

theorem firstMatchLen_none {cs : List Char} :
    ∀ {table : List LexEntry}, firstMatchLen table cs = none →
      ∀ e ∈ table, patMatchLen e.pat cs = 0 := by
  intro table
  induction table with
  | nil =>
    intro _ e he
    exact absurd he (List.not_mem_nil e)
  | cons hd tl ih =>
    intro h e he
    unfold firstMatchLen at h
    by_cases hz : patMatchLen hd.pat cs == 0
    · rw [if_pos hz] at h
      rcases List.mem_cons.mp he with rfl | htl
      · simpa using hz
      · exact ih h e htl
    · rw [if_neg hz] at h
      cases h

theorem lexLoop_text_nonempty {table : List LexEntry} :
    ∀ (fuel : Nat) (cs : List Char) (ts : List Token),
      lexLoop table fuel cs = some ts → ∀ t ∈ ts, t.text ≠ [] := by
  intro fuel
  induction fuel with
  | zero =>
    intro cs ts h
    cases cs with
    | nil =>
      have h' : (some [] : Option (List Token)) = some ts := h
      cases h'; intro t ht; exact absurd ht (List.not_mem_nil t)
    | cons c rest => exact absurd h (by simp [lexLoop])
  | succ fuel ih =>
    intro cs ts h
    cases cs with
    | nil =>
      have h' : (some [] : Option (List Token)) = some ts := h
      cases h'; intro t ht; exact absurd ht (List.not_mem_nil t)
    | cons c rest =>
      cases hs : lexStep table (c :: rest) with
      | none =>
        have h' : (none : Option (List Token)) = some ts := by
          rw [← h]; unfold lexLoop; rw [hs]
        cases h'
      | some tr =>
        obtain ⟨t, rest'⟩ := tr
        have h' : Option.map (t :: ·) (lexLoop table fuel rest') = some ts := by
          rw [← h]; conv_rhs => unfold lexLoop
          rw [hs]
        cases hl : lexLoop table fuel rest' with
        | none => rw [hl] at h'; cases h'
        | some ts' =>
          rw [hl] at h'
          simp only [Option.map_some', Option.some.injEq] at h'
          subst h'
          intro u hu
          rcases List.mem_cons.mp hu with rfl | hts'
          · obtain ⟨n, hn, htext, _⟩ := lexStep_text_take hs
            rw [htext]
            obtain ⟨m, rfl⟩ := Nat.exists_eq_succ_of_ne_zero hn
            simp
          · exact ih rest' ts' hl u hts'

theorem firstSuccess_first (f : Grammar → MatchOutcome) :
    ∀ (alts : List Grammar) (i : Nat) (hi : i < alts.length),
      (∀ j (hj : j < i), f (alts.get ⟨j, Nat.lt_trans hj hi⟩) = .fail) →
      (f (alts.get ⟨i, hi⟩)).isSucc = true →
      firstSuccess f alts = f (alts.get ⟨i, hi⟩) ∧
        firstSuccess f (alts.take (i + 1)) = f (alts.get ⟨i, hi⟩) := by
  intro alts
  induction alts with
  | nil => intro i hi; exact absurd hi (by simp)
  | cons a tl ih =>
    intro i hi hfail hsucc
    cases i with
    | zero =>
      cases hfa : f (List.get (a :: tl) ⟨0, hi⟩) with
      | fail => rw [hfa] at hsucc; simp [MatchOutcome.isSucc] at hsucc
      | unresolved m => rw [hfa] at hsucc; simp [MatchOutcome.isSucc] at hsucc
      | success n =>
        have hfa' : f a = .success n := hfa
        constructor
        · show (match f a with | .fail => firstSuccess f tl | r => r) = _
          rw [hfa']
        · show (match f a with | .fail => firstSuccess f [] | r => r) = _
          rw [hfa']
    | succ i =>
      have hfa : f a = .fail := hfail 0 (Nat.succ_pos i)
      have hi' : i < tl.length := by simpa using hi
      have hfail' : ∀ j (hj : j < i), f (tl.get ⟨j, Nat.lt_trans hj hi'⟩) = .fail := by
        intro j hj
        exact hfail (j + 1) (by omega)
      have hsucc' : (f (tl.get ⟨i, hi'⟩)).isSucc = true := hsucc
      obtain ⟨h1, h2⟩ := ih i hi' hfail' hsucc'
      constructor
      · show (match f a with | .fail => firstSuccess f tl | r => r) = _
        rw [hfa]
        exact h1
      · show (match f a with | .fail => firstSuccess f (tl.take (i + 1)) | r => r) = _
        rw [hfa]
        exact h2

/-- Claim C1: for every dialect lexer table and every input that lexes
successfully, concatenating the emitted token texts in document order is
byte-identical to the input; consequently any tree whose leaves are exactly
those tokens (the lossless-parse invariant: no parse step drops or reorders
trivia) reserializes to the input exactly. -/
theorem lex_roundtrip_exact (table : List LexEntry) (cs : List Char)
    (ts : List Token) (tr : STree) (hlex : lexWith table cs = some ts)
    (htree : leafTokens tr = ts) :
    tokensRaw ts = cs ∧ treeRaw tr = cs := by
  have h1 : tokensRaw ts = cs := lexLoop_concat cs.length cs ts hlex
  refine ⟨h1, ?_⟩
  rw [treeRaw, htree]
  exact h1

/-- Witness for C1 at the concrete ANSI input `a,b` and a two-level tree
holding exactly its three tokens as leaves. -/
theorem lex_roundtrip_exact_witness :
    tokensRaw (lexToks "a,b") = "a,b".toList ∧
      treeRaw (.node "statement"
        (.cons (.leaf ⟨"code", ['a'], true⟩)
          (.cons (.leaf ⟨"comma", [','], true⟩)
            (.cons (.leaf ⟨"code", ['b'], true⟩) .nil)))) = "a,b".toList :=
  lex_roundtrip_exact ansiLexTable "a,b".toList (lexToks "a,b")
    (.node "statement"
      (.cons (.leaf ⟨"code", ['a'], true⟩)
        (.cons (.leaf ⟨"comma", [','], true⟩)
          (.cons (.leaf ⟨"code", ['b'], true⟩) .nil))))
    (by decide) (by decide)

/-- Claim C4: the lexer takes, at each position, the first table pattern
matching a non-empty prefix (so every emitted token is non-empty, even where
`[\t ]*` or `[0-9a-zA-Z_]*` would admit an empty match), fails with a
LexError exactly when no pattern matches, and in the ANSI table every
multi-character operator pattern precedes the single-character pattern for
its prefix character, so `<=` lexes as one `less_than_or_equal` token. -/
theorem lexer_first_nonempty_match :
    (∀ (cs : List Char) (e : LexEntry) (n : Nat),
        firstMatchLen ansiLexTable cs = some (e, n) →
        n ≠ 0 ∧ patMatchLen e.pat cs = n ∧
          ∃ i : Nat, ansiLexTable[i]? = some e ∧
            ∀ j : Nat, j < i → ∀ e' : LexEntry, ansiLexTable[j]? = some e' →
              patMatchLen e'.pat cs = 0)
    ∧ (∀ cs : List Char, firstMatchLen ansiLexTable cs = none →
        ∀ e ∈ ansiLexTable, patMatchLen e.pat cs = 0)
    ∧ (∀ (cs : List Char) (ts : List Token),
        lexWith ansiLexTable cs = some ts → ∀ t ∈ ts, t.text ≠ [])
    ∧ ansiLex "<=" = some [⟨"less_than_or_equal", ['<', '='], true⟩]
    ∧ ansiLex ">=" = some [⟨"greater_than_or_equal", ['>', '='], true⟩]
    ∧ ansiLex "!=" = some [⟨"not_equal", ['!', '='], true⟩]
    ∧ ansiLex "<>" = some [⟨"not_equal", ['<', '>'], true⟩]
    ∧ ansiLex "::" = some [⟨"casting_operator", [':', ':'], true⟩]
    ∧ ansiLex "!" = none
    ∧ (ansiLexTable.map LexEntry.name).indexOf "not_equal" <
        (ansiLexTable.map LexEntry.name).indexOf "equals"
    ∧ (ansiLexTable.map LexEntry.name).indexOf "greater_than_or_equal" <
        (ansiLexTable.map LexEntry.name).indexOf "greater_than"
    ∧ (ansiLexTable.map LexEntry.name).indexOf "less_than_or_equal" <
        (ansiLexTable.map LexEntry.name).indexOf "less_than"
    ∧ (ansiLexTable.map LexEntry.name).indexOf "casting_operator" <
        (ansiLexTable.map LexEntry.name).indexOf "dot" := by
  refine ⟨?_, ?_, ?_, by decide, by decide, by decide, by decide, by decide,
    by decide, by decide, by decide, by decide, by decide⟩
  · intro cs e n h
    obtain ⟨hn, hlen⟩ := firstMatchLen_pos h
    exact ⟨hn, hlen, firstMatchLen_first h⟩
  · intro cs h
    exact firstMatchLen_none h
  · intro cs ts h
    exact lexLoop_text_nonempty cs.length cs ts h

/-- Witness for C4: the first-match characterization applied at the input
`<=`, where the matching entry is the `less_than_or_equal` pattern. -/
theorem lexer_first_nonempty_match_witness :
    (2 : Nat) ≠ 0 ∧
      patMatchLen (LexEntry.mk "less_than_or_equal" (.exactPat ['<', '=']) true).pat
        "<=".toList = 2 ∧
      ∃ i : Nat, ansiLexTable[i]? = some ⟨"less_than_or_equal", .exactPat ['<', '='], true⟩ ∧
        ∀ j : Nat, j < i → ∀ e' : LexEntry, ansiLexTable[j]? = some e' →
          patMatchLen e'.pat "<=".toList = 0 :=
  lexer_first_nonempty_match.1 "<=".toList ⟨"less_than_or_equal", .exactPat ['<', '='], true⟩
    2 (by decide)

/-- Claim C9: every word of the anti-template set (JOIN, ON, USING, CROSS,
INNER, LEFT, RIGHT, OUTER), in any letter case, satisfies the
naked-identifier template yet is rejected by `NakedIdentifierSegment`, both
as a token predicate and through the grammar matcher. -/
theorem naked_identifier_anti_template :
    (∀ w ∈ antiWords, nakedTemplateOk w = true)
    ∧ (∀ t : Token, antiWords.contains (upperT t) = true → nakedIdentTok t = false)
    ∧ (∀ (fuel : Nat) (d : Dialect) (t : Token) (rest : List Token),
        antiWords.contains (upperT t) = true →
        matchG (fuel + 1) d .reNaked (t :: rest) = .fail) := by
  have hrej : ∀ t : Token, antiWords.contains (upperT t) = true → nakedIdentTok t = false := by
    intro t h
    simp only [nakedIdentTok, h]
    simp
  refine ⟨by decide, hrej, ?_⟩
  intro fuel d t rest h
  show (if terminalTok .reNaked t then MatchOutcome.success 1 else .fail) = .fail
  have : terminalTok .reNaked t = false := hrej t h
  rw [this]
  simp

/-- Witness for C9 at the mixed-case token `jOiN`: the anti-template rejects
it even though the template accepts it. -/
theorem naked_identifier_anti_template_witness :
    nakedIdentTok ⟨"code", "jOiN".toList, true⟩ = false ∧
      matchG 5 ansiFragment .reNaked [⟨"code", "jOiN".toList, true⟩] = .fail ∧
      nakedTemplateOk "JOIN".toList = true :=
  ⟨naked_identifier_anti_template.2.1 ⟨"code", "jOiN".toList, true⟩ (by decide),
   naked_identifier_anti_template.2.2 4 ansiFragment ⟨"code", "jOiN".toList, true⟩ []
     (by decide),
   naked_identifier_anti_template.1 "JOIN".toList (by decide)⟩

/-- Claim C3: `OneOf` selects the first alternative in declared order whose
match succeeds — not the longest match — and its result never depends on the
siblings after the selected one (removing them leaves the outcome
unchanged), so a failure deeper inside the chosen branch cannot cause a
later sibling to be retried; since `matchG` is a pure function of the
dialect and the slice, repeated matching returns the same result. -/
theorem oneOf_first_listed_success (fuel : Nat) (d : Dialect) (alts : List Grammar)
    (toks : List Token) (i : Nat) (hi : i < alts.length)
    (hfail : ∀ j (hj : j < i), matchG fuel d (alts.get ⟨j, Nat.lt_trans hj hi⟩) toks = .fail)
    (hsucc : (matchG fuel d (alts.get ⟨i, hi⟩) toks).isSucc = true) :
    matchG (fuel + 1) d (.oneOf alts) toks = matchG fuel d (alts.get ⟨i, hi⟩) toks ∧
      matchG (fuel + 1) d (.oneOf (alts.take (i + 1))) toks =
        matchG fuel d (alts.get ⟨i, hi⟩) toks := by
  have h := firstSuccess_first (fun a => matchG fuel d a toks) alts i hi hfail hsucc
  exact ⟨h.1, h.2⟩

/-- Witness for C3: matching `true` against the `LiteralGrammar`
alternatives selects the third alternative (`BooleanLiteralGrammar`), the
first in declared order to succeed, after the quoted and numeric literal
alternatives fail. -/
theorem oneOf_first_listed_success_witness :
    matchG 11 ansiFragment (.oneOf literalGrammarAlts) (lexToks "true") =
      matchG 10 ansiFragment (literalGrammarAlts.get ⟨2, by decide⟩) (lexToks "true") :=
  (oneOf_first_listed_success 10 ansiFragment literalGrammarAlts (lexToks "true") 2
    (by decide)
    (by
      intro j hj
      interval_cases j
      · show matchG 10 ansiFragment (.ref "QuotedLiteralSegment") (lexToks "true") = .fail
        decide
      · show matchG 10 ansiFragment (.ref "NumericLiteralSegment") (lexToks "true") = .fail
        decide)
    (by decide)).1

/-- Claim C5: overriding the single `NakedIdentifierSegment` binding in a
dialect derived from the ANSI dialect leaves the bindings of
`SingleIdentifierGrammar` and `ObjectReferenceSegment` untouched, yet — 
because `Ref` lookups resolve lazily against the active dialect at match
time — changes the match behaviour of both grammars; concretely, overriding
with the plain-word pattern makes `join` (rejected by the ANSI
anti-template) match as an identifier and as an object reference. -/
theorem dialect_override_propagates (g' : Grammar) :
    lookupD (overrideD ansiFragment "NakedIdentifierSegment" g') "SingleIdentifierGrammar" =
        lookupD ansiFragment "SingleIdentifierGrammar"
    ∧ lookupD (overrideD ansiFragment "NakedIdentifierSegment" g') "ObjectReferenceSegment" =
        lookupD ansiFragment "ObjectReferenceSegment"
    ∧ (∀ (fuel : Nat) (toks : List Token),
        matchG (fuel + 1) (overrideD ansiFragment "NakedIdentifierSegment" g')
            (.ref "NakedIdentifierSegment") toks =
          matchG fuel (overrideD ansiFragment "NakedIdentifierSegment" g') g' toks)
    ∧ matchG 20 ansiFragment (.ref "SingleIdentifierGrammar") (lexToks "join") = .fail
    ∧ matchG 20 (overrideD ansiFragment "NakedIdentifierSegment" .reWord)
        (.ref "SingleIdentifierGrammar") (lexToks "join") = .success 1
    ∧ matchG 20 ansiFragment (.ref "ObjectReferenceSegment") (lexToks "join") = .fail
    ∧ matchG 20 (overrideD ansiFragment "NakedIdentifierSegment" .reWord)
        (.ref "ObjectReferenceSegment") (lexToks "join") = .success 1 := by
  refine ⟨rfl, rfl, ?_, by decide, by decide, by decide, by decide⟩
  intro fuel toks
  rfl

/-- Witness for C5 instantiated at the plain-word override: the
`SingleIdentifierGrammar` binding is unchanged while `join` now matches. -/
theorem dialect_override_propagates_witness :
    lookupD (overrideD ansiFragment "NakedIdentifierSegment" .reWord)
        "SingleIdentifierGrammar" = lookupD ansiFragment "SingleIdentifierGrammar" ∧
      matchG 20 (overrideD ansiFragment "NakedIdentifierSegment" .reWord)
        (.ref "SingleIdentifierGrammar") (lexToks "join") = .success 1 :=
  ⟨(dialect_override_propagates .reWord).1,
   (dialect_override_propagates .reWord).2.2.2.2.1⟩

/-- Claim C6: a `Delimited` grammar with comma delimiter and identifier
elements matches the token sequence of `a, b, c` with exactly 3 elements
(and 2 delimiters, consuming all 7 tokens), while the trailing-delimiter
input `a, b,` is a match failure — never a successful match that silently
drops the trailing delimiter. -/
theorem delimited_comma_boundary :
    delimFull (matchG 19 ansiFragment) (.ref "SingleIdentifierGrammar")
        (.ref "CommaSegment") 0 none true (lexToks "a, b, c") = .ok 7 3 2
    ∧ matchG 20 ansiFragment
        (.delimited (.ref "SingleIdentifierGrammar") (.ref "CommaSegment") 0 none true)
        (lexToks "a, b, c") = .success 7
    ∧ delimFull (matchG 19 ansiFragment) (.ref "SingleIdentifierGrammar")
        (.ref "CommaSegment") 0 none true (lexToks "a, b,") = .fail
    ∧ matchG 20 ansiFragment
        (.delimited (.ref "SingleIdentifierGrammar") (.ref "CommaSegment") 0 none true)
        (lexToks "a, b,") = .fail := by
  refine ⟨by decide, by decide, by decide, by decide⟩

/-- Claim C7: a `Bracketed` grammar succeeds only when the opening bracket
has a matching closing bracket (a successful match implies `findClose`
locates one); failure carries zero consumption by construction of
`MatchOutcome.fail`.  On the unbalanced input `foo(a, (b)` the
`FunctionSegment` match grammar — whose argument list is
`Bracketed(Anything)` — fails outright. -/
theorem bracketed_balance_required :
    (∀ (f : Grammar → List Token → MatchOutcome) (inner : Grammar)
        (toks : List Token) (n : Nat),
        bracketedMatch f inner toks = .success n →
        ∃ (t : Token) (rest : List Token) (j : Nat),
          toks.drop (countLeadNonCode toks) = t :: rest ∧
            t.text = ['('] ∧ findClose rest 0 = some j)
    ∧ matchG 20 ansiFragment functionMatchGrammar (lexToks "foo(a, (b)") = .fail
    ∧ matchG 20 ansiFragment (.ref "FunctionSegment") (lexToks "foo(a, (b)") = .fail
    ∧ matchG 20 ansiFragment (.ref "FunctionSegment") (lexToks "foo(a, (b))") = .success 9 := by
  refine ⟨?_, by decide, by decide, by decide⟩
  intro f inner toks n h
  unfold bracketedMatch at h
  split at h
  · exact absurd h (by simp)
  · rename_i t rest hdrop
    split at h
    · rename_i htext
      split at h
      · exact absurd h (by simp)
      · rename_i j hfc
        exact ⟨t, rest, j, hdrop, by simpa using htext, hfc⟩
    · exact absurd h (by simp)

/-- Witness for C7: the balanced input `(a)` matches, so the inversion
produces its matching close bracket. -/
theorem bracketed_balance_required_witness :
    ∃ (t : Token) (rest : List Token) (j : Nat),
      (lexToks "(a)").drop (countLeadNonCode (lexToks "(a)")) = t :: rest ∧
        t.text = ['('] ∧ findClose rest 0 = some j :=
  bracketed_balance_required.1 (matchG 19 ansiFragment) .anything (lexToks "(a)") 3
    (by decide)

/-- Claim C8: registering grammars whose `Ref`s name not-yet-present
bindings succeeds (registration is a pure table extension performing no
resolution) — the first `add` call binds `LiteralGrammar`, which references
`QualifiedNumericLiteralSegment` although that name is absent at that stage
— and the unresolved-reference error surfaces only when such a `Ref` is
exercised during matching: under the incomplete stage-1 dialect matching
`+3` raises it, while under the completed dialect the same match succeeds. -/
theorem forward_references_resolved_lazily :
    lookupD ansiStage1 "QualifiedNumericLiteralSegment" = none
    ∧ lookupD ansiStage1 "LiteralGrammar" = some (.oneOf literalGrammarAlts)
    ∧ Grammar.ref "QualifiedNumericLiteralSegment" ∈ literalGrammarAlts
    ∧ ansiFragment = ansiStage1 ++ ansiStage2
    ∧ lookupD ansiFragment "QualifiedNumericLiteralSegment" =
        some qualifiedNumericMatchGrammar
    ∧ matchG 20 ansiStage1 (.ref "LiteralGrammar") (lexToks "+3") =
        .unresolved "QualifiedNumericLiteralSegment"
    ∧ matchG 20 ansiFragment (.ref "LiteralGrammar") (lexToks "+3") = .success 2 := by
  refine ⟨rfl, rfl, ?_, rfl, rfl, by decide, by decide⟩
  unfold literalGrammarAlts
  exact List.Mem.tail _ (List.Mem.tail _ (List.Mem.tail _ (List.Mem.head _)))

/-- Claim C2 counterexample: on `select Foo, foo, FOO from t` the
case-consistency rule over naked identifiers does NOT flag exactly the 2nd
and 3rd identifiers — the table identifier `t` (the 4th naked identifier,
lower style, disagreeing with the first-seen capitalised style `Foo`) is
flagged as well. -/
theorem rule_L014_scenario_counterexample :
    ¬ ((ruleL014Lint "select Foo, foo, FOO from t").map Prod.fst = [1, 2]) := by
  decide

/-- Claim C2 (amended): on `select Foo, foo, FOO from t` the rule — with
`Rule_L014`'s target set narrowed to naked identifiers — walks the targets
`Foo, foo, FOO, t` in document order; the first-seen style `Foo`
(capitalised) wins, and the rule flags the 2nd, 3rd and 4th identifiers,
each with a fix rewriting it to the first-seen style: `foo → Foo`,
`FOO → Foo` and `t → T`. -/
theorem rule_L014_scenario_amended :
    nakedIdentifierTargets "select Foo, foo, FOO from t" =
        ["Foo".toList, "foo".toList, "FOO".toList, "t".toList]
    ∧ styleOf "Foo".toList = some .capitalise
    ∧ ruleL014Lint "select Foo, foo, FOO from t" =
        [(1, "Foo".toList), (2, "Foo".toList), (3, "T".toList)]
    ∧ ruleL014TargetElems = [("name", "naked_identifier")] := by
  refine ⟨by decide, by decide, by decide, rfl⟩

/-- Claim C10: no binding of the ANSI dialect carries the segment name
`naked_identifier`; `NakedIdentifierSegment`, the only producer of the type
`naked_identifier`, carries the name `identifier`; `Rule_L014` overrides
only `_target_elems`, to `[("name", "naked_identifier")]`; hence a filter
matching that pair against segment names alone selects no binding, while a
filter that also consults the type tag selects exactly
`NakedIdentifierSegment`. -/
theorem naked_identifier_targeting_needs_type :
    (∀ e ∈ ansiDialectEntries, e.name ≠ some "naked_identifier")
    ∧ (∀ e ∈ ansiDialectEntries, e.typ = some "naked_identifier" →
        e.key = "NakedIdentifierSegment")
    ∧ (⟨"NakedIdentifierSegment", some "identifier", some "naked_identifier"⟩ : DialectEntry)
        ∈ ansiDialectEntries
    ∧ ruleL014TargetElems = [("name", "naked_identifier")]
    ∧ ansiDialectEntries.filter (selByNameOnly ruleL014TargetElems) = []
    ∧ ansiDialectEntries.filter (selByNameOrType ruleL014TargetElems) =
        [⟨"NakedIdentifierSegment", some "identifier", some "naked_identifier"⟩] := by
  refine ⟨by decide, by decide, by decide, rfl, by decide, by decide⟩

/-- Witness for C10 at the `CommaSegment` binding: its name is not
`naked_identifier`. -/
theorem naked_identifier_targeting_needs_type_witness :
    (⟨"CommaSegment", some "comma", some "comma"⟩ : DialectEntry).name ≠
      some "naked_identifier" :=
  naked_identifier_targeting_needs_type.1 ⟨"CommaSegment", some "comma", some "comma"⟩
    (by decide)
